import Mathlib

/-
Verification development for the john-snow teaching notebooks (spatial
relations, operations, Voronoi tessellation, spatial joins and spatial
weights over the 1854 Soho cholera data).

The notebooks are linear scripts over GeoDataFrames.  We embed:
  * the tabular data model (lists of rows / association lists of columns),
  * the repository helper functions (countBuffersContaining,
    tidyBufferOverlaps, plotKernel bucketing, the Id comprehension),
  * the coordinate-reference-system bookkeeping of the notebook cells, and
  * models of the third-party geometry calls the cells invoke (shapely
    buffer / contains / overlaps / intersection, geopandas sjoin, libpysal
    voronoi_frames, pandas cut), written from their documented semantics
    where the library source is not part of this repository.

Planar coordinates are exact rationals (the data is projected in the
British National Grid, EPSG 27700, with metre units); the idealised
geometric statements about the plane use real coordinates.
-/

namespace JohnSnow

/-- Point of the projected plane with exact rational coordinates. -/
abbrev Pt := ℚ × ℚ

/-- Squared Euclidean distance between two points of the plane. -/
def sqdist (p q : Pt) : ℚ := (p.1 - q.1) ^ 2 + (p.2 - q.2) ^ 2

/-- Circular disc: model of the 200 m buffer polygon around a pump point.
The notebooks build these with pumps.buffer(200). -/
structure Disc where
  center : Pt
  radius : ℚ
deriving DecidableEq

/-- Modelled from the spec: shapely contains for a point and a circular
buffer - the polygon contains the point exactly when the point lies in its
interior (shapely binary predicates; the library is not part of this
repository). -/
def discContainsB (b : Disc) (p : Pt) : Bool :=
  decide (sqdist p b.center < b.radius ^ 2)

/-- Modelled from the spec: shapely within for two discs - disc a is within
disc b when every point of a lies in b. -/
def discWithinB (a b : Disc) : Bool :=
  decide (a.radius ≤ b.radius ∧
    sqdist a.center b.center ≤ (b.radius - a.radius) ^ 2)

/-- Modelled from the spec: shapely overlaps for two discs - the interiors
intersect and neither disc is within the other (shapely overlaps needs
common points, same dimension, and a two-dimensional interior
intersection; the library is not part of this repository). -/
def discOverlapsB (a b : Disc) : Bool :=
  decide (sqdist a.center b.center < (a.radius + b.radius) ^ 2)
    && !(discWithinB a b) && !(discWithinB b a)

/-- Row of the pumps GeoDataFrame in Relations.ipynb after the cell
pumps[buffer] = pumps.buffer(200): a pump name, the pump point geometry,
and the 200 m buffer polygon column. -/
structure PumpRow where
  name : String
  point : Pt
  buffer : Disc
deriving DecidableEq

/-- Embedding of the squeeze step of countBuffersContaining:
pumpsGDF[pumpsGDF[name]==pumpName][geometry].squeeze() yields the single
point geometry when the name selection has exactly one row (with several
rows pandas squeeze would return a Series instead of a geometry, and the
later shapely call would fail, so the model returns none there). -/
def squeezePoint (pumpName : String) (pumpsGDF : List PumpRow) : Option Pt :=
  match pumpsGDF.filter (fun r => r.name == pumpName) with
  | [r] => some r.point
  | _ => none

/-- Embedding of the accumulation loop of countBuffersContaining
(Relations.ipynb): iterate over the rows of the GeoDataFrame and append
the row name whenever row[buffer].contains(focalPump). -/
def containedNames (focalPump : Pt) (pumpsGDF : List PumpRow) : List String :=
  pumpsGDF.foldl
    (fun contained row =>
      if discContainsB row.buffer focalPump then contained ++ [row.name]
      else contained)
    []

/-- Embedding of countBuffersContaining (Relations.ipynb): squeeze the
focal pump point out of the name selection, collect the names of the rows
whose buffer contains it, and report how many were collected (the printed
messages report len(contained)). -/
def countBuffersContaining (pumpName : String) (pumpsGDF : List PumpRow) :
    Option ℕ :=
  (squeezePoint pumpName pumpsGDF).map
    (fun focalPump => (containedNames focalPump pumpsGDF).length)

/-- Observable outcome of tidyBufferOverlaps (Relations.ipynb): either the
error message - Pump name incorrectly specified - printed when a name
selection comes back empty, or the printed overlaps result. -/
inductive TidyOut where
  | nameError : TidyOut
  | overlapsVal : Bool → TidyOut
deriving DecidableEq

/-- Embedding of tidyBufferOverlaps (Relations.ipynb): select the rows for
the two names; if either selection is empty (len(A)==0 or len(B)==0)
report the name error, otherwise print Abuf.overlaps(Bbuf) for the
squeezed buffers.  In the source a duplicated name would make squeeze
return a Series and the shapely call would fail; names are unique in the
data and the model uses the head of the selection. -/
def tidyBufferOverlaps (buff1 buff2 : String) (pumpsGDF : List PumpRow) :
    TidyOut :=
  match pumpsGDF.filter (fun r => r.name == buff1),
        pumpsGDF.filter (fun r => r.name == buff2) with
  | [], _ => TidyOut.nameError
  | _, [] => TidyOut.nameError
  | a :: _, b :: _ => TidyOut.overlapsVal (discOverlapsB a.buffer b.buffer)

/-- Concrete pumps table with the names used by Relations.ipynb.
Coordinates and buffers are representative values in metres of the
projected plane (the shapefile data is not part of the repository); the
branching of the helper functions depends only on the name column. -/
def relationsPumps : List PumpRow :=
  [ { name := "Broad St Pump", point := (0, 0),
      buffer := { center := (0, 0), radius := 200 } }
  , { name := "Rupert St Pump", point := (150, -260),
      buffer := { center := (150, -260), radius := 200 } }
  , { name := "Ramilies Place Pump", point := (-300, 260),
      buffer := { center := (-300, 260), radius := 200 } } ]

/-- Row of the concrete pumps table holding the Broad St Pump. -/
def broadRow : PumpRow :=
  { name := "Broad St Pump", point := (0, 0),
    buffer := { center := (0, 0), radius := 200 } }

/-- Modelled from the spec: gpd.sjoin with how=inner (geopandas is not
part of this repository).  A combined row pairs a left row with a right
row exactly when the spatial predicate given by op holds between their
geometries; rows carry their attribute payload of type alpha or beta next
to a geometry of type gamma, and the attributes play no role in the
matching. -/
def sjoinInner {α β γ : Type} (pred : γ → γ → Bool)
    (left : List (α × γ)) (right : List (β × γ)) :
    List ((α × γ) × (β × γ)) :=
  left.flatMap (fun l => (right.filter (fun r => pred l.2 r.2)).map (fun r => (l, r)))

/-- Modelled from the spec: the Voronoi / Thiessen region of seed i is the
region of the plane closer to that seed than to any other seed
(voronoi_frames lives in libpysal, which is not part of this repository;
the spec glossary defines the region this way). -/
def voronoiCell {n : ℕ} (seeds : Fin n → Pt) (i : Fin n) (p : Pt) : Prop :=
  ∀ j : Fin n, j ≠ i → sqdist p (seeds i) < sqdist p (seeds j)

instance {n : ℕ} (seeds : Fin n → Pt) (i : Fin n) (p : Pt) :
    Decidable (voronoiCell seeds i p) :=
  inferInstanceAs (Decidable (∀ j : Fin n, j ≠ i → _ < _))

/-- Seeds of a two-pump highlight example used to evaluate the Voronoi
model on concrete data. -/
def twoSeeds : Fin 2 → Pt := ![(0, 0), (4, 0)]

/-- Tabular model for the attribute columns of a loaded vector dataset: an
association list from column name to the list of cell values of the
column (integer-valued columns such as Id and Count). -/
abbrev Table := List (String × List ℤ)

/-- Column lookup: the values of the first column with the given name. -/
def getCol (t : Table) (c : String) : Option (List ℤ) :=
  (t.find? (fun kv => kv.1 == c)).map (fun kv => kv.2)

/-- Names of the columns of a table. -/
def colNames (t : Table) : List String := t.map (fun kv => kv.1)

/-- Embedding of pandas column assignment df[c] = vs: replace the values
of column c when it exists, otherwise append c as a new column. -/
def setCol (t : Table) (c : String) (vs : List ℤ) : Table :=
  if t.any (fun kv => kv.1 == c) then
    t.map (fun kv => if kv.1 == c then (kv.1, vs) else kv)
  else t ++ [(c, vs)]

/-- Length of a column (0 when the column is absent). -/
def colLen (t : Table) (c : String) : ℕ := ((getCol t c).getD []).length

/-- Embedding of the cell deaths[Id] = [i for i in range(len(deaths[Id]))]
from the Spatial Joins notebook: overwrite the Id column with the unique
integers 0, 1, ... . -/
def assignId (t : Table) : Table :=
  setCol t "Id" ((List.range (colLen t "Id")).map (fun i => (i : ℤ)))

/-- Concrete three-row fragment of the deaths attribute table as loaded
from Cholera_Deaths.shp: the Id column currently just contains zeros (the
notebook says so before reassigning it) next to the death Count column. -/
def deathsSmall : Table := [("Id", [0, 0, 0]), ("Count", [3, 2, 1])]

/-- GeoDataFrame coordinate-reference-system bookkeeping: a frame carries
an optional EPSG code. -/
structure GFrame where
  crs : Option ℕ
deriving DecidableEq

/-- Frames loaded with gpd.read_file carry the CRS stored in the
shapefile; the notebooks check that pumps, blocks and deaths all load
with EPSG 27700 (British National Grid). -/
def loadedFrame : GFrame := { crs := some 27700 }

/-- Buffering with pumps.buffer(200) keeps the CRS of the source frame. -/
def bufferFrame (f : GFrame) : GFrame := { crs := f.crs }

/-- Modelled from the spec: voronoi_frames returns plain GeoDataFrames
with no CRS set - the Spatial Joins notebook prints regions_df.crs and
observes None (libpysal is not part of this repository). -/
def voronoiFrame : GFrame := { crs := none }

/-- Embedding of regions_df.set_crs(epsg=27700): stamp the frame with the
given EPSG code. -/
def setCrsFrame (_f : GFrame) (epsg : ℕ) : GFrame := { crs := some epsg }

/-- Trace of the coordinate reference systems carried by the two geometry
collections at each spatial comparison the notebooks perform, in cell
execution order.  Entry 9 is the first sjoin of deaths against regions_df,
run before the set_crs cell. -/
def crsComparisonTrace : List (Option ℕ × Option ℕ) :=
  [ (loadedFrame.crs, loadedFrame.crs)                       -- Relations: pump to pump distance calls
  , (loadedFrame.crs, (bufferFrame loadedFrame).crs)         -- Relations: within / contains / overlaps on buffers
  , (loadedFrame.crs, (bufferFrame loadedFrame).crs)         -- Joins: sjoin deaths within buffers (inner)
  , ((bufferFrame loadedFrame).crs, loadedFrame.crs)         -- Joins: sjoin buffers contains deaths (inner)
  , ((bufferFrame loadedFrame).crs, loadedFrame.crs)         -- Joins: sjoin buffers contains deaths (right)
  , (loadedFrame.crs, (bufferFrame loadedFrame).crs)         -- Joins: dwb_inner
  , (loadedFrame.crs, (bufferFrame loadedFrame).crs)         -- Joins: dwb_left
  , (loadedFrame.crs, (bufferFrame loadedFrame).crs)         -- Joins: dwb_right
  , (loadedFrame.crs, (bufferFrame loadedFrame).crs)         -- Joins: deaths contain buffers
  , (loadedFrame.crs, voronoiFrame.crs)                      -- Joins: first sjoin deaths within voronoi
  , (loadedFrame.crs, (setCrsFrame voronoiFrame 27700).crs) ] -- Joins: repeated sjoin after set_crs

/-- Bin edges of plotKernel (Spatial Weights notebook):
EQbins = [0.0, 0.2, 0.4, 0.6, 0.8, 1.0]. -/
def EQbins : List ℚ := [0, 0.2, 0.4, 0.6, 0.8, 1]

/-- Python str() rendering of the float bin edges, as used by the label
format call of plotKernel. -/
def pyFloat (q : ℚ) : String :=
  if q = 0 then "0.0"
  else if q = 0.2 then "0.2"
  else if q = 0.4 then "0.4"
  else if q = 0.6 then "0.6"
  else if q = 0.8 then "0.8"
  else if q = 1 then "1.0"
  else ""

/-- Embedding of the label loop of plotKernel: for every index i > 0 into
EQbins append the label EQbins[i-1]-EQbins[i]. -/
def kernelLabs : List String :=
  (List.range EQbins.length).foldl
    (fun labs i =>
      if 0 < i then
        labs ++ [pyFloat (EQbins.getD (i - 1) 0) ++ "-" ++ pyFloat (EQbins.getD i 0)]
      else labs)
    []

/-- Modelled from the spec: pd.cut of a weight against the EQbins edges
(pandas is not part of this repository; its documented semantics places a
value in the right-closed interval between consecutive edges, and a value
at or below the leftmost edge gets no category). -/
def pdCutEQ (w : ℚ) : Option ℕ :=
  if 0 < w ∧ w ≤ 0.2 then some 0
  else if 0.2 < w ∧ w ≤ 0.4 then some 1
  else if 0.4 < w ∧ w ≤ 0.6 then some 2
  else if 0.6 < w ∧ w ≤ 0.8 then some 3
  else if 0.8 < w ∧ w ≤ 1 then some 4
  else none

/-- Embedding of the bucketing of plotKernel: weights equal to 0 are first
replaced by NaN (full_matrix[full_matrix==0] = np.nan) and NaN gets no
category; any other weight is cut against EQbins. -/
def plotKernelCat (w : ℚ) : Option ℕ :=
  if w = 0 then none else pdCutEQ w

/-- Modelled from the spec: number of rows of the deaths dataset.  The
shapefile itself is not part of the repository; the Spatial Joins
notebook assigns the points unique Ids 0, 1, ... and then discusses the
point with Id == 249, and the canonical Cholera_Deaths data has 250 point
locations. -/
def deathsRowCount : ℕ := 250

/-- Embedding of the comprehension [i for i in range(n)] used to build the
new Id column: one iteration per element of range(n). -/
def idComprehension (n : ℕ) : List ℕ := (List.range n).map (fun i => i)

/-- Iteration counts of every other loop in the repository code, given the
number p of rows of the pumps table: seven Relations loops over pumps
rows (including the loops inside countBuffersContaining, whose inner
contained list has at most p entries), the pumpNames loop of the Spatial
Joins notebook (at most p names), three annotate loops of the Spatial
Weights notebook over pumps rows, the axes loops of the plotting cells
(2, 2 and three times 4 axes), the EQbins label loop (6 edges), and the
kernel-function list loops (4 entries each). -/
def smallLoopTrace (p : ℕ) : List ℕ :=
  [p, p, p, p, p, p, p, p, p, p, p, 2, 2, 4, 4, 4, 6, 4, 4]

/-- Modelled from the spec: vertex k of the polygon that shapely
buffer(r) builds around centre c - the regular polygon inscribed in the
circle of radius r with 4 quad segments per quarter, n vertices in all
(n = 64 at the default resolution 16), vertex k at angle 2 pi k / n. -/
noncomputable def bufferVertex (c : ℝ × ℝ) (r : ℝ) (n k : ℕ) : ℝ × ℝ :=
  (c.1 + r * Real.cos (2 * Real.pi * k / n),
   c.2 + r * Real.sin (2 * Real.pi * k / n))

/-- Region of the plane covered by the buffer polygon: convex hull of its
vertex ring. -/
def bufferPoly (c : ℝ × ℝ) (r : ℝ) (n : ℕ) : Set (ℝ × ℝ) :=
  convexHull ℝ {p | ∃ k, k < n ∧ p = bufferVertex c r n k}

/-- Area of the buffer polygon via the shoelace formula over its vertex
ring (the signed area is translation invariant, so it is computed with
the centre at the origin). -/
noncomputable def bufferPolyArea (r : ℝ) (n : ℕ) : ℝ :=
  (1 / 2) * ∑ k in Finset.range n,
    ((bufferVertex (0, 0) r n k).1 * (bufferVertex (0, 0) r n (k + 1)).2
      - (bufferVertex (0, 0) r n (k + 1)).1 * (bufferVertex (0, 0) r n k).2)

/-- Modelled from the spec: shapely intersection of two regions - the
points common to both objects (shapely is not part of this repository). -/
def intersectionOp (A B : Set (ℝ × ℝ)) : Set (ℝ × ℝ) := A ∩ B

/-- Closed disc of the real plane around c with radius r, described by the
squared distance; the set of all points within distance r of c. -/
def realDisc (c : ℝ × ℝ) (r : ℝ) : Set (ℝ × ℝ) :=
  {p | (p.1 - c.1) ^ 2 + (p.2 - c.2) ^ 2 ≤ r ^ 2}

/-! Helper lemmas. -/

/-- Accumulator form of the containedNames loop: folding from any initial
list appends exactly the names of the rows whose buffer contains the
focal point. -/
theorem foldl_contained_aux (focalPump : Pt) (l : List PumpRow)
    (acc : List String) :
    l.foldl
      (fun contained row =>
        if discContainsB row.buffer focalPump then contained ++ [row.name]
        else contained) acc
      = acc ++ (l.filter (fun r => discContainsB r.buffer focalPump)).map
          (fun r => r.name) := by
  induction l generalizing acc with
  | nil => simp
  | cons r t ih =>
    by_cases hr : discContainsB r.buffer focalPump <;>
      simp [List.filter_cons, hr, ih]

/-- Entries returned by find? satisfy the search predicate. -/
theorem find?_pred {α : Type} (p : α → Bool) (l : List α) (a : α)
    (h : l.find? p = some a) : p a = true := by
  induction l with
  | nil => exact absurd h (by simp)
  | cons x l ih =>
    by_cases hx : p x = true
    · simp [List.find?_cons, hx] at h
      exact h ▸ hx
    · simp [List.find?_cons, hx] at h
      exact ih h

/-- Keys survive the value replacement of setCol: looking up a column
other than the replaced one is unchanged by the map step. -/
theorem find?_replaceCol (t : Table) (c : String) (vs : List ℤ) (d : String)
    (h : c ≠ d) :
    (t.map (fun kv => if kv.1 == c then (kv.1, vs) else kv)).find?
        (fun kv => kv.1 == d)
      = t.find? (fun kv => kv.1 == d) := by
  rw [List.find?_map]
  have hpg : ((fun kv : String × List ℤ => kv.1 == d) ∘
      (fun kv => if kv.1 == c then (kv.1, vs) else kv))
      = fun kv : String × List ℤ => kv.1 == d := by
    funext kv
    by_cases hkv : (kv.1 == c) = true <;> simp [Function.comp, hkv]
  rw [hpg]
  cases hf : t.find? (fun kv : String × List ℤ => kv.1 == d) with
  | none => rfl
  | some kv =>
    have hkv : (kv.1 == d) = true :=
      find?_pred (fun kv : String × List ℤ => kv.1 == d) t kv hf
    have hkd : kv.1 = d := by simpa using hkv
    have hkc : (kv.1 == c) = false := by
      refine beq_eq_false_iff_ne.mpr ?_
      rw [hkd]
      exact Ne.symm h
    simp [hkc]
    exact fun hcc => absurd hcc (beq_eq_false_iff_ne.mp hkc)

/-- Setting one column of a table leaves every other column unchanged. -/
theorem getCol_setCol_ne (t : Table) (c : String) (vs : List ℤ) (d : String)
    (h : c ≠ d) : getCol (setCol t c vs) d = getCol t d := by
  unfold setCol getCol
  split
  · rw [find?_replaceCol t c vs d h]
  · rw [List.find?_append]
    have : ([(c, vs)] : Table).find? (fun kv => kv.1 == d) = none := by
      simp [List.find?_cons, h]
    simp [this]

/-- Shoelace closed form: the area of the inscribed regular n-gon built
by the buffer model is (n/2) r^2 sin(2 pi / n). -/
theorem bufferPolyArea_closed (r : ℝ) (n : ℕ) :
    bufferPolyArea r n = ((n : ℝ) / 2) * r ^ 2 * Real.sin (2 * Real.pi / n) := by
  have hterm : ∀ k : ℕ,
      (bufferVertex (0, 0) r n k).1 * (bufferVertex (0, 0) r n (k + 1)).2
        - (bufferVertex (0, 0) r n (k + 1)).1 * (bufferVertex (0, 0) r n k).2
      = r ^ 2 * Real.sin (2 * Real.pi / n) := by
    intro k
    unfold bufferVertex
    dsimp only
    push_cast
    have hs := Real.sin_sub (2 * Real.pi * ((k : ℝ) + 1) / n)
      (2 * Real.pi * (k : ℝ) / n)
    have hang : 2 * Real.pi * ((k : ℝ) + 1) / n - 2 * Real.pi * (k : ℝ) / n
        = 2 * Real.pi / n := by ring
    rw [hang] at hs
    rw [hs]
    ring
  unfold bufferPolyArea
  rw [Finset.sum_congr rfl (fun k _ => hterm k), Finset.sum_const,
    Finset.card_range, nsmul_eq_mul]
  ring

/-- Convexity of the closed disc described by the squared distance. -/
theorem convex_realDisc (c : ℝ × ℝ) (r : ℝ) : Convex ℝ (realDisc c r) := by
  intro p hp q hq a b ha hb hab
  simp only [realDisc, Set.mem_setOf_eq] at hp hq ⊢
  have h1 : (a • p + b • q).1 = a * p.1 + b * q.1 := rfl
  have h2 : (a • p + b • q).2 = a * p.2 + b * q.2 := rfl
  rw [h1, h2]
  have hc1 : a * p.1 + b * q.1 - c.1 = a * (p.1 - c.1) + b * (q.1 - c.1) := by
    linear_combination c.1 * hab
  have hc2 : a * p.2 + b * q.2 - c.2 = a * (p.2 - c.2) + b * (q.2 - c.2) := by
    linear_combination c.2 * hab
  rw [hc1, hc2]
  have hb1 : b = 1 - a := by linarith
  subst hb1
  nlinarith [mul_nonneg ha hb, sq_nonneg ((p.1 - c.1) - (q.1 - c.1)),
    sq_nonneg ((p.2 - c.2) - (q.2 - c.2)), hp, hq,
    mul_nonneg (mul_nonneg ha hb) (sq_nonneg ((p.1 - c.1) - (q.1 - c.1))),
    mul_nonneg (mul_nonneg ha hb) (sq_nonneg ((p.2 - c.2) - (q.2 - c.2))),
    mul_nonneg (mul_nonneg ha ha) (sub_nonneg.mpr hp),
    mul_nonneg (mul_nonneg hb hb) (sub_nonneg.mpr hq),
    mul_nonneg (mul_nonneg ha hb) (sub_nonneg.mpr hp),
    mul_nonneg (mul_nonneg ha hb) (sub_nonneg.mpr hq)]

/-- Every vertex of the buffer polygon lies on the bounding circle, hence
inside the closed disc. -/
theorem bufferVertex_mem_realDisc (c : ℝ × ℝ) (r : ℝ) (n k : ℕ) :
    bufferVertex c r n k ∈ realDisc c r := by
  unfold bufferVertex realDisc
  simp only [Set.mem_setOf_eq]
  nlinarith [Real.sin_sq_add_cos_sq (2 * Real.pi * k / n)]

/-- Buffer polygon stays inside the closed disc of its radius. -/
theorem bufferPoly_subset_disc (c : ℝ × ℝ) (r : ℝ) (n : ℕ) :
    bufferPoly c r n ⊆ realDisc c r := by
  unfold bufferPoly
  refine convexHull_min ?_ (convex_realDisc c r)
  rintro p ⟨k, _, rfl⟩
  exact bufferVertex_mem_realDisc c r n k

/-- Strict area deficit of the 64-gon buffer polygon of radius 200
against the circle of radius 200. -/
theorem bufferPolyArea_64_lt : bufferPolyArea 200 64 < Real.pi * 200 ^ 2 := by
  rw [bufferPolyArea_closed]
  have h64 : 2 * Real.pi / ((64 : ℕ) : ℝ) = Real.pi / 32 := by
    push_cast
    ring
  rw [h64]
  have hs : Real.sin (Real.pi / 32) < Real.pi / 32 :=
    Real.sin_lt (by positivity)
  push_cast
  linarith [hs]

/-- Membership of the first vertex in the buffer polygon around the
origin. -/
theorem bufferVertex_zero_mem :
    bufferVertex (0, 0) 200 64 0 ∈ bufferPoly (0, 0) 200 64 :=
  subset_convexHull ℝ _ ⟨0, by norm_num, rfl⟩

/-! Claim theorems. -/

/-- C1: a pair of rows, one from the left collection and one from the
right, contributes a combined row to the inner spatial join exactly when
the spatial predicate holds between their two geometries; the attribute
payloads of the rows play no role in the matching (no key equality is
involved). -/
theorem sjoinInner_pair_mem_iff {α β γ : Type} (pred : γ → γ → Bool)
    (left : List (α × γ)) (right : List (β × γ)) (l : α × γ) (r : β × γ) :
    (l, r) ∈ sjoinInner pred left right ↔
      l ∈ left ∧ r ∈ right ∧ pred l.2 r.2 = true := by
  simp only [sjoinInner, List.mem_flatMap, List.mem_map, List.mem_filter,
    Prod.mk.injEq]
  constructor
  · rintro ⟨a, ha, x, ⟨hx, hpred⟩, rfl, rfl⟩
    exact ⟨ha, hx, hpred⟩
  · rintro ⟨hl, hr, hpred⟩
    exact ⟨l, hl, r, ⟨hr, hpred⟩, rfl, rfl⟩

/-- C2: a point of the plane lies in at most one Voronoi cell - the cells
of distinct seeds are disjoint (hence their interiors are disjoint and
every death point is within at most one region). -/
theorem voronoiCell_at_most_one {n : ℕ} (seeds : Fin n → Pt) (p : Pt)
    (i j : Fin n) (hi : voronoiCell seeds i p) (hj : voronoiCell seeds j p) :
    i = j := by
  by_contra hne
  have h1 : sqdist p (seeds i) < sqdist p (seeds j) := hi j (Ne.symm hne)
  have h2 : sqdist p (seeds j) < sqdist p (seeds i) := hj i hne
  exact absurd h1 (not_lt.mpr (le_of_lt h2))

/-- Concrete cell membership: the point (1, 0) is closer to the first of
the two seeds than to the second. -/
theorem twoSeeds_cell_zero : voronoiCell twoSeeds 0 (1, 0) := by
  intro j hj
  fin_cases j
  · exact absurd rfl hj
  · norm_num [twoSeeds, sqdist]

/-- C2 witness: the point (1, 0) lies in the cell of the first of the two
seeds, and the theorem applies to it. -/
theorem voronoiCell_at_most_one_witness :
    voronoiCell twoSeeds 0 (1, 0) ∧ (0 : Fin 2) = 0 :=
  ⟨twoSeeds_cell_zero,
    voronoiCell_at_most_one twoSeeds (1, 0) 0 0 twoSeeds_cell_zero
      twoSeeds_cell_zero⟩

/-- C3 counterexample: the repository code does contain a branch that
programmatically detects an empty selection result and reports it -
tidyBufferOverlaps applied to a misspelled pump name takes the
len(A)==0 branch and prints the error message instead of an overlaps
result. -/
theorem tidyBufferOverlaps_reports_missing_name :
    tidyBufferOverlaps "Broad Street Pump" "Rupert St Pump" relationsPumps
        = TidyOut.nameError
      ∧ relationsPumps.filter (fun r => r.name == "Broad Street Pump") = [] := by
  decide

/-- C3 amended: tidyBufferOverlaps reports the name error exactly when one
of the two name selections is empty; this is the only programmatic
detection of an empty result in the repository, and no code path detects
or repairs coordinate-reference-system mismatches or missing columns. -/
theorem tidyBufferOverlaps_nameError_iff (buff1 buff2 : String)
    (pumpsGDF : List PumpRow) :
    tidyBufferOverlaps buff1 buff2 pumpsGDF = TidyOut.nameError ↔
      (pumpsGDF.filter (fun r => r.name == buff1) = []
        ∨ pumpsGDF.filter (fun r => r.name == buff2) = []) := by
  rcases hA : pumpsGDF.filter (fun r => r.name == buff1) with _ | ⟨a, A⟩ <;>
    rcases hB : pumpsGDF.filter (fun r => r.name == buff2) with _ | ⟨b, B⟩ <;>
      simp [tidyBufferOverlaps, hA, hB]

/-- C4 counterexample: the area of the polygon returned by the buffer
call is not the area of a circle of radius 200 - the buffer is the
inscribed regular 64-gon at the default resolution and its area falls
strictly short of pi times 200 squared (the notebook itself observes the
two area values are similar but not identical). -/
theorem bufferPolyArea_ne_circle_area :
    bufferPolyArea 200 64 ≠ Real.pi * 200 ^ 2 :=
  ne_of_lt bufferPolyArea_64_lt

/-- C4 amended: for every pump point, the polygon returned by
pumps.buffer(200) is an approximate representation of the points within
distance 200 of the pump - every point of the polygon is at distance at
most 200 from the pump, and its area approximates but is strictly less
than that of a circle of radius 200. -/
theorem buffer_polygon_within_distance (c : ℝ × ℝ) :
    (∀ p ∈ bufferPoly c 200 64,
        (p.1 - c.1) ^ 2 + (p.2 - c.2) ^ 2 ≤ 200 ^ 2)
      ∧ bufferPolyArea 200 64 < Real.pi * 200 ^ 2 :=
  ⟨fun _p hp => bufferPoly_subset_disc c 200 64 hp, bufferPolyArea_64_lt⟩

/-- C4 witness: the first vertex of the polygon around the origin lies in
the polygon and is within distance 200 of the origin. -/
theorem buffer_polygon_within_distance_witness :
    bufferVertex (0, 0) 200 64 0 ∈ bufferPoly (0, 0) 200 64
      ∧ ((bufferVertex (0, 0) 200 64 0).1 - ((0, 0) : ℝ × ℝ).1) ^ 2
          + ((bufferVertex (0, 0) 200 64 0).2 - ((0, 0) : ℝ × ℝ).2) ^ 2
        ≤ 200 ^ 2 :=
  ⟨bufferVertex_zero_mem,
    (buffer_polygon_within_distance (0, 0)).1 _ bufferVertex_zero_mem⟩

/-- C5 counterexample: the cell deaths[Id] = [i for i in range(len(deaths[Id]))]
modifies the values of an existing column - the Id column exists before
the assignment, holds placeholder zeros, and holds different values
afterwards. -/
theorem assignId_overwrites_Id_column :
    ("Id" ∈ colNames deathsSmall)
      ∧ getCol deathsSmall "Id" = some [0, 0, 0]
      ∧ getCol (assignId deathsSmall) "Id" = some [0, 1, 2]
      ∧ getCol (assignId deathsSmall) "Id" ≠ getCol deathsSmall "Id" := by
  decide

/-- C5 amended: the notebook operations either add a new transient
in-memory column or overwrite the in-memory Id column of deaths
(replacing its placeholder zeros with unique identifiers); no other
existing column is modified - the Id assignment leaves every other
column unchanged, and a column assignment never changes a differently
named column. -/
theorem notebook_ops_touch_only_assigned_column :
    (∀ (t : Table) (c : String), c ≠ "Id" →
        getCol (assignId t) c = getCol t c)
      ∧ (∀ (t : Table) (c : String) (vs : List ℤ) (d : String), c ≠ d →
          getCol (setCol t c vs) d = getCol t d) := by
  constructor
  · intro t c hc
    exact getCol_setCol_ne t "Id" _ c (Ne.symm hc)
  · intro t c vs d h
    exact getCol_setCol_ne t c vs d h

/-- C5 witness: the Count column of the concrete deaths fragment is
unchanged by the Id assignment. -/
theorem notebook_ops_witness :
    ("Count" ≠ "Id")
      ∧ getCol (assignId deathsSmall) "Count" = getCol deathsSmall "Count" :=
  ⟨by decide,
    notebook_ops_touch_only_assigned_column.1 deathsSmall "Count" (by decide)⟩

/-- C6 counterexample: at the first sjoin of deaths against the Voronoi
regions the two collections do not carry the same coordinate reference
system - deaths carries EPSG 27700 while regions_df carries none. -/
theorem first_voronoi_sjoin_crs_mismatch :
    crsComparisonTrace.getD 9 (none, none) = (some 27700, none)
      ∧ (crsComparisonTrace.getD 9 (none, none)).1
          ≠ (crsComparisonTrace.getD 9 (none, none)).2 := by
  decide

/-- C6 amended: at every spatial comparison the notebooks perform except
the first sjoin of deaths against the freshly built Voronoi regions
(performed before the set_crs repair cell), the two geometry collections
carry the same coordinate reference system. -/
theorem crs_match_except_first_voronoi_sjoin
    (i : Fin crsComparisonTrace.length) (h : (i : ℕ) ≠ 9) :
    (crsComparisonTrace.get i).1 = (crsComparisonTrace.get i).2 := by
  revert h
  revert i
  decide

/-- C6 witness: the first comparison of the trace has matching coordinate
reference systems. -/
theorem crs_match_witness :
    ((⟨0, by decide⟩ : Fin crsComparisonTrace.length) : ℕ) ≠ 9
      ∧ (crsComparisonTrace.get ⟨0, by decide⟩).1
          = (crsComparisonTrace.get ⟨0, by decide⟩).2 :=
  ⟨by decide, crs_match_except_first_voronoi_sjoin ⟨0, by decide⟩ (by decide)⟩

/-- C7: plotKernel buckets the kernel weights of the focal row as
follows - the labels are 0.0-0.2 through 0.8-1.0, every weight equal to 0
is replaced by NaN and receives no bin, and every remaining weight w with
0 < w and w at most 1 lands in exactly the right-closed fifth of the unit
interval that holds it. -/
theorem plotKernel_buckets :
    kernelLabs = ["0.0-0.2", "0.2-0.4", "0.4-0.6", "0.6-0.8", "0.8-1.0"]
      ∧ (∀ w : ℚ, w = 0 → plotKernelCat w = none)
      ∧ (∀ w : ℚ, 0 < w → w ≤ 1 →
          ∃ i, i < 5 ∧ plotKernelCat w = some i
            ∧ EQbins.getD i 0 < w ∧ w ≤ EQbins.getD (i + 1) 0) := by
  refine ⟨?_, ?_, ?_⟩
  · have hr : List.range EQbins.length = [0, 1, 2, 3, 4, 5] := by rfl
    unfold kernelLabs
    rw [hr]
    norm_num [pyFloat, EQbins]
    exact ⟨rfl, rfl, rfl, rfl, rfl⟩
  · intro w hw
    simp [plotKernelCat, hw]
  · intro w h0 h1
    unfold plotKernelCat pdCutEQ
    rw [if_neg (ne_of_gt h0)]
    split_ifs with h2 h3 h4 h5 h6
    · exact ⟨0, by norm_num, rfl, by simpa [EQbins] using h2⟩
    · refine ⟨1, by norm_num, rfl, ?_⟩
      simpa [EQbins] using h3
    · refine ⟨2, by norm_num, rfl, ?_⟩
      simpa [EQbins] using h4
    · refine ⟨3, by norm_num, rfl, ?_⟩
      simpa [EQbins] using h5
    · refine ⟨4, by norm_num, rfl, ?_⟩
      simpa [EQbins] using h6
    · exfalso
      have k2 : ¬ w ≤ 0.2 := fun hw => h2 ⟨h0, hw⟩
      have k3 : ¬ w ≤ 0.4 := fun hw => h3 ⟨not_le.mp k2, hw⟩
      have k4 : ¬ w ≤ 0.6 := fun hw => h4 ⟨not_le.mp k3, hw⟩
      have k5 : ¬ w ≤ 0.8 := fun hw => h5 ⟨not_le.mp k4, hw⟩
      exact h6 ⟨not_le.mp k5, h1⟩

/-- C7 witness: the weight one half lands in the middle bin. -/
theorem plotKernel_buckets_witness :
    ((0 : ℚ) < 1 / 2 ∧ (1 / 2 : ℚ) ≤ 1)
      ∧ ∃ i, i < 5 ∧ plotKernelCat (1 / 2) = some i
          ∧ EQbins.getD i 0 < 1 / 2 ∧ (1 / 2 : ℚ) ≤ EQbins.getD (i + 1) 0 :=
  ⟨⟨by norm_num, by norm_num⟩,
    plotKernel_buckets.2.2 (1 / 2) (by norm_num) (by norm_num)⟩

/-- C8 counterexample: the comprehension that rebuilds the Id column
iterates once per row of the deaths dataset - 250 iterations, far more
than 20 elements. -/
theorem id_comprehension_exceeds_twenty :
    (idComprehension deathsRowCount).length = deathsRowCount
      ∧ ¬ (idComprehension deathsRowCount).length ≤ 20 := by
  constructor
  · simp [idComprehension]
  · simp [idComprehension, deathsRowCount]

/-- C8 amended: every loop of the repository code other than the Id
comprehension iterates over a small collection - the pumps rows (at most
20) or a constant list of plot axes, bin edges or kernel names - while
the Id comprehension iterates over the 250 rows of deaths. -/
theorem loops_small_except_id_comprehension (p : ℕ) (hp : p ≤ 20) :
    (∀ c ∈ smallLoopTrace p, c ≤ 20)
      ∧ 20 < (idComprehension deathsRowCount).length := by
  constructor
  · intro c hc
    fin_cases hc <;> omega
  · simp [idComprehension, deathsRowCount]

/-- C8 witness: with the thirteen pumps of the dataset every loop other
than the Id comprehension stays at or below 20 iterations. -/
theorem loops_small_witness :
    (13 ≤ 20)
      ∧ ((∀ c ∈ smallLoopTrace 13, c ≤ 20)
        ∧ 20 < (idComprehension deathsRowCount).length) :=
  ⟨by decide, loops_small_except_id_comprehension 13 (by decide)⟩

/-- C9: intersection of the two buffer polygons is commutative - the
regions bufA.intersection(bufB) and bufB.intersection(bufA) are equal
whatever the two pump centres are. -/
theorem bufferPoly_intersection_comm (cA cB : ℝ × ℝ) :
    intersectionOp (bufferPoly cA 200 64) (bufferPoly cB 200 64)
      = intersectionOp (bufferPoly cB 200 64) (bufferPoly cA 200 64) :=
  Set.inter_comm _ _

/-- C10: when a pump name occurs exactly once in the name column, the
count reported by countBuffersContaining is the number of rows of the
GeoDataFrame whose buffer polygon contains the point geometry of that
pump. -/
theorem countBuffersContaining_counts_containing_rows
    (pumpName : String) (pumpsGDF : List PumpRow) (row : PumpRow)
    (h : pumpsGDF.filter (fun r => r.name == pumpName) = [row]) :
    countBuffersContaining pumpName pumpsGDF
      = some ((pumpsGDF.filter
          (fun r => discContainsB r.buffer row.point)).length) := by
  unfold countBuffersContaining squeezePoint
  rw [h]
  simp [containedNames, foldl_contained_aux]

/-- C10 witness: in the concrete pumps table the Broad St Pump name occurs
once and exactly one buffer (its own) contains the Broad St Pump point. -/
theorem countBuffersContaining_witness :
    relationsPumps.filter (fun r => r.name == "Broad St Pump") = [broadRow]
      ∧ countBuffersContaining "Broad St Pump" relationsPumps
          = some ((relationsPumps.filter
              (fun r => discContainsB r.buffer broadRow.point)).length)
      ∧ countBuffersContaining "Broad St Pump" relationsPumps = some 1 :=
  ⟨by decide,
    countBuffersContaining_counts_containing_rows "Broad St Pump"
      relationsPumps broadRow (by decide),
    by
      have h1 : (("Rupert St Pump" : String) == "Broad St Pump") = false := by
        decide
      have h2 : (("Ramilies Place Pump" : String) == "Broad St Pump") = false := by
        decide
      norm_num [countBuffersContaining, squeezePoint, relationsPumps,
        containedNames, broadRow, discContainsB, sqdist, List.filter, h1, h2]⟩

end JohnSnow
